import Mathlib

/-!
# Verification of the twilight HTTP/gateway core

A shallow embedding in Lean 4 of the rate-limit bucket scheduler
(`src/http/src/ratelimiting/in_memory/bucket.rs`), the HTTP request pipeline
(`src/http/src/client/mod.rs`), the shard builder's token normalization
(`src/gateway/src/shard/builder.rs`) and the cluster send surface
(`src/gateway/src/cluster/impl.rs`), together with theorems settling the
specification's claims about them.

Conventions: Rust `u64` values become `Nat` with explicit wrapping
(`% 2 ^ 64`) where the source can overflow; `Instant` becomes a `Nat`
millisecond timestamp; `Duration` a `Nat` millisecond count; fallible Rust
paths become `Except`/`Option` values.
-/

namespace Twilight

/-- `u64::max_value()` (`2 ^ 64 - 1`), the sentinel used by `Bucket::new`. -/
def U64MAX : Nat := 18446744073709551615

/-- The modulus of `u64` arithmetic (`2 ^ 64`; `AtomicU64::fetch_sub`
wraps). -/
def U64SIZE : Nat := 18446744073709551616

/-- Rate-limit bucket state, from `Bucket` in
`src/http/src/ratelimiting/in_memory/bucket.rs`.  The `path` key and the
admission `queue` are handled by the registry / queue-task models below;
the numeric fields and `started_at` are embedded here.  `started_at` is a
millisecond timestamp (`Instant` in the source). -/
structure Bucket where
  limit : Nat
  remaining : Nat
  reset_after : Nat
  started_at : Option Nat
deriving Repr, DecidableEq

/-- `Bucket::new`: all counters start at the `u64::max_value()` sentinel and
the window is unstarted. -/
def Bucket.new : Bucket :=
  { limit := U64MAX
    remaining := U64MAX
    reset_after := U64MAX
    started_at := none }

/-- `TimeRemaining`, from the source enum of the same name. -/
inductive TimeRemaining where
  | Finished
  | NotStarted
  | SomeDur (d : Nat)
deriving Repr, DecidableEq

/-- `Bucket::time_remaining`, evaluated at the instant `now`
(`started_at.elapsed()` becomes `now - s`). -/
def Bucket.timeRemaining (b : Bucket) (now : Nat) : TimeRemaining :=
  match b.started_at with
  | none => .NotStarted
  | some s =>
    let elapsed := now - s
    if elapsed > b.reset_after then .Finished
    else .SomeDur (b.reset_after - elapsed)

/-- `Bucket::try_reset`, evaluated at the instant `now`.  Returns the
source's `bool` along with the updated bucket. -/
def Bucket.tryReset (b : Bucket) (now : Nat) : Bool × Bucket :=
  if b.started_at.isNone then (false, b)
  else
    match b.timeRemaining now with
    | .Finished => (true, { b with remaining := b.limit, started_at := none })
    | _ => (false, b)

/-- `Bucket::update`, evaluated at the instant `now`.  The source reads
`bucket_limit` first, then fills a missing `started_at` with `Instant::now()`,
then either stores the header tuple (recording `limit`/`reset_after` only the
first time the limit differs from the sentinel) or, with no tuple, performs a
wrapping `fetch_sub(1)` on `remaining`. -/
def Bucket.update (b : Bucket) (now : Nat)
    (ratelimits : Option (Nat × Nat × Nat)) : Bucket :=
  let bucket_limit := b.limit
  let b := if b.started_at.isNone then { b with started_at := some now } else b
  match ratelimits with
  | some (limit, remaining, reset_after) =>
    let b :=
      if bucket_limit ≠ limit ∧ bucket_limit = U64MAX then
        { b with reset_after := reset_after, limit := limit }
      else b
    { b with remaining := remaining }
  | none => { b with remaining := (b.remaining + U64MAX) % U64SIZE }

/-- Parsed rate-limit headers.  The enum itself lives in the ratelimiting
`headers` module (not under `src/`); its three shapes are fixed by the
spec's header taxonomy (None / Present / GlobalLimited) and by the pattern
match in `BucketQueueTask::handle_headers`.  Modelled from the spec:
`Headers::Present` carries `{global, limit, remaining, reset_after}` and
`Headers::GlobalLimited` carries `{reset_after}`. -/
inductive Headers where
  | None
  | Present (global : Bool) (limit remaining reset_after : Nat)
  | GlobalLimited (reset_after : Nat)
deriving Repr, DecidableEq

/-- The `ratelimits` tuple that `BucketQueueTask::handle_headers` passes to
`Bucket::update`: `none` exactly for `GlobalLimited` (after locking the
global lock), an early return (no update at all) for `Headers::None`, and
the verbatim tuple for `Present`. -/
def handleHeaders (b : Bucket) (now : Nat) : Headers → Bucket
  | .GlobalLimited _ => b.update now none
  | .None => b
  | .Present _ limit remaining reset_after =>
      b.update now (some (limit, remaining, reset_after))

/-- The duration for which `BucketQueueTask::handle_headers` invokes
`lock_global`: the `reset_after` of a `GlobalLimited` report, the
`reset_after` of a `Present` report whose `global` flag is set, and nothing
otherwise. -/
def globalLockRequest : Headers → Option Nat
  | .GlobalLimited reset_after => some reset_after
  | .Present global _ _ reset_after => if global then some reset_after else none
  | .None => none

/-- Outcome of `timeout(WAIT, ticket_headers)` in `BucketQueueTask::run`:
either `Ok(Ok(Some(headers)))`, or one of the three non-update branches
(`Ok(Ok(None))` — request aborted, `Ok(Err(_))` — channel closed, `Err(_)`
— timeout), which the source collapses into a single log-and-continue arm. -/
inductive TicketResult where
  | got (h : Headers)
  | lost
deriving Repr, DecidableEq

/-- What one admitted queue entry does to the worker's bucket, following the
body of `BucketQueueTask::run`: a dropped-notifier ticket
(`queue_tx.available()` returned `None`) is skipped, a reported outcome
updates the bucket through `handle_headers` only when actual headers came
back. -/
inductive TicketStep where
  | skipped
  | reported (now : Nat) (r : TicketResult)
deriving Repr, DecidableEq

/-- Effect of one loop iteration's ticket on the bucket. -/
def bucketAfterTicket (b : Bucket) : TicketStep → Bucket
  | .skipped => b
  | .reported now (.got h) => handleHeaders b now h
  | .reported _ .lost => b

/-- Result of `BucketQueue::pop(WAIT)` as seen by the `while let` loop in
`BucketQueueTask::run`: either a ticket was popped within the idle timeout,
or the pop timed out (`None`), ending the loop. -/
inductive PopStep where
  | popped (t : TicketStep)
  | timedOut
deriving Repr, DecidableEq

/-- The shared bucket registry `Arc<Mutex<HashMap<Path, Arc<Bucket>>>>`,
embedded as an association list from path to bucket state. -/
def Registry := List (String × Bucket)

/-- `HashMap::get` on the registry. -/
def lookupBucket : List (String × Bucket) → String → Option Bucket
  | [], _ => none
  | p :: rest, path => if p.1 = path then some p.2 else lookupBucket rest path

/-- `HashMap::remove(&self.path)` on the registry: drop the binding for the
given path. -/
def removeBucket : List (String × Bucket) → String → List (String × Bucket)
  | [], _ => []
  | p :: rest, path =>
    if p.1 = path then removeBucket rest path
    else p :: removeBucket rest path

/-- Apply a ticket's bucket mutation to the worker's own bucket inside the
registry (the worker holds an `Arc` to the bucket the registry maps its own
path to). -/
def updateOwnBucket (l : List (String × Bucket)) (path : String)
    (t : TicketStep) : List (String × Bucket) :=
  l.map (fun p => if p.1 = path then (p.1, bucketAfterTicket p.2 t) else p)

/-- `BucketQueueTask::run` as a registry transformer over the sequence of
pop outcomes the worker observes: each popped ticket mutates the worker's
bucket; the first pop timeout ends the `while let` loop, after which the
task removes its own path from the registry.  An exhausted list stands for
a worker that is still running (externally cancelled), which leaves the
registry as is. -/
def runTask (regs : List (String × Bucket)) (path : String) :
    List PopStep → List (String × Bucket)
  | [] => regs
  | .timedOut :: _ => removeBucket regs path
  | .popped t :: rest => runTask (updateOwnBucket regs path t) path rest

/-- State of the global-lock pair: the `AtomicBool` flag plus the earliest
instant the async `Mutex` can next be acquired.

Modelled from the spec: `GlobalLockPair` itself lives in the ratelimiting
module root (not under `src/`); per the spec it is a cluster-wide gate whose
`lock`/`unlock` set and clear the flag that `is_locked` reads, with the
paired mutex serializing trippers (at most one tripper holds it; re-entry
coalesces). -/
structure GlobalLockPair where
  locked : Bool
  mutexFreeAt : Nat
deriving Repr, DecidableEq

/-- Timed semantics of one call to `BucketQueueTask::lock_global(wait)`
entered at instant `t`: set the flag (`self.global.lock()`), block until the
mutex is free (`self.global.0.lock().await`), sleep `wait` ms, clear the
flag (`self.global.unlock()`), release the mutex.  Returns the final pair
state together with the flag writes `(instant, value)` this call performs,
in chronological order. -/
def lockGlobalEvents (g : GlobalLockPair) (t wait : Nat) :
    GlobalLockPair × List (Nat × Bool) :=
  let tAcq := max t g.mutexFreeAt
  let tEnd := tAcq + wait
  ({ locked := false, mutexFreeAt := tEnd }, [(t, true), (tEnd, false)])

/-- Merge two chronologically ordered write traces, earlier instants first
(ties: left trace first, matching that the first tripper's writes precede a
re-entrant tripper's at equal instants). -/
def mergeTraces : List (Nat × Bool) → List (Nat × Bool) → List (Nat × Bool)
  | [], ys => ys
  | x :: xs, [] => x :: xs
  | x :: xs, y :: ys =>
    if x.1 ≤ y.1 then x :: mergeTraces xs (y :: ys)
    else y :: mergeTraces (x :: xs) ys
termination_by xs ys => xs.length + ys.length

/-- The flag value a chronologically ordered write trace leaves visible at
a given instant (initially unlocked). -/
def flagAt (writes : List (Nat × Bool)) (time : Nat) : Bool :=
  writes.foldl (fun acc w => if w.1 ≤ time then w.2 else acc) false

/-- Flag-write trace of a single `lock_global(d1)` call entered at `t1` on
an untripped, uncontended lock. -/
def soloTrace (t1 d1 : Nat) : List (Nat × Bool) :=
  (lockGlobalEvents { locked := false, mutexFreeAt := 0 } t1 d1).2

/-- Flag-write trace of a first `lock_global(d1)` entered at `t1` followed
by a re-entrant `lock_global(n)` entered at `t` (the second call blocks on
the mutex the first call holds). -/
def reentrantTrace (t1 d1 t n : Nat) : List (Nat × Bool) :=
  let first := lockGlobalEvents { locked := false, mutexFreeAt := 0 } t1 d1
  let second := lockGlobalEvents first.1 t n
  mergeTraces first.2 second.2

/-- `BucketQueueTask::wait_if_needed`, entered at instant `now`; `resume` is
the instant at which the `sleep(wait)` returns control (tokio guarantees
`resume ≥ now + wait`).  Returns the slept duration (if any) together with
the bucket state at the moment the worker proceeds to pop the next ticket. -/
def waitIfNeeded (b : Bucket) (now resume : Nat) : Option Nat × Bucket :=
  if 0 < b.remaining then (none, b)
  else
    match b.timeRemaining now with
    | .Finished => (none, (b.tryReset now).2)
    | .NotStarted => (none, b)
    | .SomeDur dur => (some dur, (b.tryReset resume).2)

/-- The client state relevant to `Client::request`: the write-once
`token_invalid` `AtomicBool` and whether a `Ratelimiter` was configured
(`state.ratelimiter: Option<Ratelimiter>`). -/
structure ClientState where
  token_invalid : Bool
  hasRatelimiter : Bool
deriving Repr, DecidableEq

/-- Outcome of `timeout(self.state.timeout, self.state.http.request(req))`:
the outer timeout elapsed, the transport failed, or a response arrived with
a status code and the result of `RatelimitHeaders::try_from` on its headers
(`none` when header parsing failed). -/
inductive NetOutcome where
  | timedOut
  | transportErr
  | response (status : Nat) (parsedHeaders : Option Headers)
deriving Repr, DecidableEq

/-- Outcome of draining and parsing the error body
(`hyper::body::aggregate` then `json::from_slice::<ApiError>`). -/
inductive BodyRead where
  | chunkFail
  | bytes (parsesAsApiError : Bool)
deriving Repr, DecidableEq

/-- The error kinds `Client::request` can produce (`ErrorType` in
`src/http/src/client/mod.rs`, restricted to the request path). -/
inductive ReqError where
  | Unauthorized
  | RequestTimedOut
  | RequestError
  | RequestCanceled
  | ServiceUnavailable (status : Nat)
  | ChunkingResponse
  | Parsing
  | ResponseErr (status : Nat)
deriving Repr, DecidableEq

instance : DecidableEq (Except ReqError Nat)
  | .ok a, .ok b =>
    if h : a = b then .isTrue (by rw [h])
    else .isFalse (by intro c; cases c; exact h rfl)
  | .error a, .error b =>
    if h : a = b then .isTrue (by rw [h])
    else .isFalse (by intro c; cases c; exact h rfl)
  | .ok _, .error _ => .isFalse (by intro c; cases c)
  | .error _, .ok _ => .isFalse (by intro c; cases c)

/-- What one call to `Client::request` produces: the client state after the
call, the result (a successful raw response is represented by its status
code), whether an outbound HTTP request was produced, and what, if
anything, was sent back through the rate-limit ticket (`tx.send(...)`). -/
structure ReqOutput where
  state : ClientState
  result : Except ReqError Nat
  sentNetwork : Bool
  ticketReply : Option (Option Headers)
deriving Repr, DecidableEq

/-- `Client::request`, from `src/http/src/client/mod.rs` lines 1633-1856.
`ticketOk` is whether awaiting the rate-limit ticket succeeded (`rx.await`);
`net` the network outcome; `body` the error-body read used on the
non-2xx/503 fallthrough.  Mirrors the source's order: the `token_invalid`
early return; the no-ratelimiter early return that wraps any response as a
success; the 401 latch store; the ticket reply; `is_success`; the
429/503/teapot match; the body drain and `ApiError` parse. -/
def clientRequest (st : ClientState) (ticketOk : Bool) (net : NetOutcome)
    (body : BodyRead) : ReqOutput :=
  if st.token_invalid then
    { state := st, result := .error .Unauthorized,
      sentNetwork := false, ticketReply := none }
  else if !st.hasRatelimiter then
    match net with
    | .timedOut =>
        { state := st, result := .error .RequestTimedOut,
          sentNetwork := true, ticketReply := none }
    | .transportErr =>
        { state := st, result := .error .RequestError,
          sentNetwork := true, ticketReply := none }
    | .response status _ =>
        { state := st, result := .ok status,
          sentNetwork := true, ticketReply := none }
  else if !ticketOk then
    { state := st, result := .error .RequestCanceled,
      sentNetwork := false, ticketReply := none }
  else
    match net with
    | .timedOut =>
        { state := st, result := .error .RequestTimedOut,
          sentNetwork := true, ticketReply := none }
    | .transportErr =>
        { state := st, result := .error .RequestError,
          sentNetwork := true, ticketReply := none }
    | .response status parsedHeaders =>
      let st :=
        if status = 401 then { st with token_invalid := true } else st
      let reply := some parsedHeaders
      if 200 ≤ status ∧ status ≤ 299 then
        { state := st, result := .ok status,
          sentNetwork := true, ticketReply := reply }
      else if status = 503 then
        { state := st, result := .error (.ServiceUnavailable status),
          sentNetwork := true, ticketReply := reply }
      else
        match body with
        | .chunkFail =>
            { state := st, result := .error .ChunkingResponse,
              sentNetwork := true, ticketReply := reply }
        | .bytes ok =>
          if ok then
            { state := st, result := .error (.ResponseErr status),
              sentNetwork := true, ticketReply := reply }
          else
            { state := st, result := .error .Parsing,
              sentNetwork := true, ticketReply := reply }

/-- The `"Bot "` prefix, as a character list (tokens are embedded as
`List Char`, Rust `String` being a sequence of characters here). -/
def botTag : List Char := ['B', 'o', 't', ' ']

/-- The `"Bearer "` prefix recognized by the HTTP layer's documentation. -/
def bearerTag : List Char := ['B', 'e', 'a', 'r', 'e', 'r', ' ']

/-- Token normalization in `ShardBuilder::_new`
(`src/gateway/src/shard/builder.rs` lines 103-106): prepend `"Bot "` unless
the token already starts with it. -/
def normalizeShardToken (token : List Char) : List Char :=
  if botTag.isPrefixOf token then token else botTag ++ token

/-- The per-shard send surface the cluster reaches through its shard map:
whether `Shard::send` and `Shard::command` succeed on that shard. -/
structure ShardHandle where
  sendOk : Bool
  commandOk : Bool
deriving Repr, DecidableEq

/-- The error kinds of `ClusterSendError` / `ClusterCommandError`
(`Sending` carries its source cause in the Rust; the cause does not affect
the claims). -/
inductive ClusterErr where
  | ShardNonexistent (id : Nat)
  | Sending
deriving Repr, DecidableEq

/-- `Cluster::shard(id)`: `HashMap::get` on the shard map. -/
def lookupShard : List (Nat × ShardHandle) → Nat → Option ShardHandle
  | [], _ => none
  | p :: rest, id => if p.1 = id then some p.2 else lookupShard rest id

/-- `Cluster::send` (`src/gateway/src/cluster/impl.rs` lines 622-635):
absent shard id yields `ShardNonexistent { id }`; a failing underlying
`Shard::send` yields `Sending`. -/
def clusterSend (shards : List (Nat × ShardHandle)) (id : Nat) :
    Except ClusterErr Unit :=
  match lookupShard shards id with
  | none => .error (.ShardNonexistent id)
  | some sh => if sh.sendOk then .ok () else .error .Sending

/-- `Cluster::command` (`src/gateway/src/cluster/impl.rs` lines 552-569):
same shape over `Shard::command`. -/
def clusterCommand (shards : List (Nat × ShardHandle)) (id : Nat) :
    Except ClusterErr Unit :=
  match lookupShard shards id with
  | none => .error (.ShardNonexistent id)
  | some sh => if sh.commandOk then .ok () else .error .Sending

/-! ## Operation sequences on a bucket (claim C3) -/

/-- One observable operation on a bucket after its creation: a
`Bucket::update` (with the header tuple the response carried, or `none`)
or a `Bucket::try_reset`, each at some instant. -/
inductive BOp where
  | upd (now : Nat) (h : Option (Nat × Nat × Nat))
  | reset (now : Nat)
deriving Repr, DecidableEq

/-- Apply one operation to a bucket. -/
def applyOp (b : Bucket) : BOp → Bucket
  | .upd now h => b.update now h
  | .reset now => (b.tryReset now).2

/-- Apply a sequence of operations, first operation first. -/
def applyOps (b : Bucket) (ops : List BOp) : Bucket :=
  ops.foldl applyOp b

/-- Well-formedness of one operation relative to the route's true limit
`L`: a header tuple reports the route's limit and a `remaining` within it,
and the headerless pessimistic decrement only fires while tokens remain. -/
def wfOp (L : Nat) (b : Bucket) : BOp → Bool
  | .upd _ (some (l, r, _)) => decide (l = L) && decide (r ≤ L)
  | .upd _ none => decide (0 < b.remaining)
  | .reset _ => true

/-- Well-formedness of a whole operation sequence from a given bucket
state. -/
def wfOps (L : Nat) : Bucket → List BOp → Bool
  | _, [] => true
  | b, op :: rest => wfOp L b op && wfOps L (applyOp b op) rest

/-- The spec's bucket invariant, relative to the route's true limit `L`:
`remaining ≤ limit`, and the stored limit is either the recorded one or
still the creation sentinel. -/
def BucketInv (L : Nat) (b : Bucket) : Prop :=
  b.remaining ≤ b.limit ∧ (b.limit = L ∨ b.limit = U64MAX)

lemma bucketInv_new (L : Nat) : BucketInv L Bucket.new :=
  ⟨Nat.le_refl _, Or.inr rfl⟩

lemma bucketInv_tryReset {L : Nat} {b : Bucket} (hb : BucketInv L b)
    (now : Nat) : BucketInv L (b.tryReset now).2 := by
  obtain ⟨h1, h2⟩ := hb
  unfold Bucket.tryReset
  by_cases hs : b.started_at.isNone
  · simpa [hs] using ⟨h1, h2⟩
  · simp only [hs, Bool.false_eq_true, if_false]
    cases b.timeRemaining now <;> simp_all [BucketInv]

lemma update_some_eq (b : Bucket) (now l r ra : Nat) :
    b.update now (some (l, r, ra)) =
      { limit := if b.limit ≠ l ∧ b.limit = U64MAX then l else b.limit
        remaining := r
        reset_after :=
          if b.limit ≠ l ∧ b.limit = U64MAX then ra else b.reset_after
        started_at :=
          if b.started_at.isNone then some now else b.started_at } := by
  simp only [Bucket.update]
  split_ifs <;> rfl

lemma update_none_eq (b : Bucket) (now : Nat) :
    b.update now none =
      { limit := b.limit
        remaining := (b.remaining + U64MAX) % U64SIZE
        reset_after := b.reset_after
        started_at :=
          if b.started_at.isNone then some now else b.started_at } := by
  simp only [Bucket.update]
  split_ifs <;> rfl

lemma bucketInv_applyOp {L : Nat} (hL : L ≤ U64MAX) {b : Bucket}
    (hb : BucketInv L b) {op : BOp} (hop : wfOp L b op = true) :
    BucketInv L (applyOp b op) := by
  obtain ⟨h1, h2⟩ := hb
  cases op with
  | reset now => exact bucketInv_tryReset ⟨h1, h2⟩ now
  | upd now h =>
    cases h with
    | none =>
      have hr : 0 < b.remaining := by simpa [wfOp] using hop
      have hru : b.remaining ≤ U64MAX := by
        rcases h2 with h2 | h2 <;> omega
      simp only [applyOp, update_none_eq]
      refine ⟨?_, by simpa using h2⟩
      have : (b.remaining + U64MAX) % U64SIZE = b.remaining - 1 := by
        simp only [U64MAX, U64SIZE] at *
        omega
      simp only [this]
      omega
    | some t =>
      obtain ⟨l, r, ra⟩ := t
      have hlr : l = L ∧ r ≤ L := by simpa [wfOp] using hop
      obtain ⟨hl, hr⟩ := hlr
      subst hl
      simp only [applyOp, update_some_eq]
      constructor
      · simp only []
        split_ifs with hc
        · exact hr
        · rcases h2 with h2 | h2
          · simpa [h2] using hr
          · rcases Decidable.em (b.limit = l) with he | he
            · simpa [he] using hr
            · exact absurd ⟨he, h2⟩ hc
      · simp only []
        split_ifs with hc
        · exact Or.inl rfl
        · exact h2

lemma bucketInv_applyOps {L : Nat} (hL : L ≤ U64MAX) {b : Bucket}
    (hb : BucketInv L b) {ops : List BOp} (hw : wfOps L b ops = true) :
    ∀ n, BucketInv L (applyOps b (ops.take n)) := by
  induction ops generalizing b with
  | nil => intro n; simpa [applyOps] using hb
  | cons op rest ih =>
    intro n
    have hw' : wfOp L b op = true ∧ wfOps L (applyOp b op) rest = true := by
      simpa [wfOps, Bool.and_eq_true] using hw
    cases n with
    | zero => simpa [applyOps] using hb
    | succ m =>
      have := ih (bucketInv_applyOp hL hb hw'.1) hw'.2 m
      simpa [applyOps, List.take] using this

/-! ## Claim theorems -/

/-- C1 (counterexample): a fresh ratelimited client receiving a 401 whose
body parses as an `ApiError` returns a `Response` error carrying status
401, not the `Unauthorized` error kind the claim requires. -/
theorem c1_counterexample :
    (clientRequest ⟨false, true⟩ true (.response 401 none) (.bytes true)).result
        = .error (.ResponseErr 401) ∧
    (clientRequest ⟨false, true⟩ true (.response 401 none) (.bytes true)).result
        ≠ .error .Unauthorized ∧
    (clientRequest ⟨false, true⟩ true
        (.response 401 none) (.bytes true)).state.token_invalid = true := by
  decide

/-- C1 (amended): on a client with a ratelimiter configured, a 401
response sets the `token_invalid` latch (and no request path ever clears
it: the latch is monotone under every call), and the call returns the
generic `Response` error for status 401 — or a `Parsing` /
`ChunkingResponse` error when the error body cannot be read — rather than
the `Unauthorized` kind, which is reserved for subsequent calls. -/
theorem c1_unauthorized_latch_amended (st : ClientState)
    (hdrs : Option Headers) (body : BodyRead)
    (hti : st.token_invalid = false) (hr : st.hasRatelimiter = true) :
    (clientRequest st true (.response 401 hdrs) body).state.token_invalid
        = true ∧
    ((clientRequest st true (.response 401 hdrs) body).result
        = .error (.ResponseErr 401) ∨
      (clientRequest st true (.response 401 hdrs) body).result
        = .error .Parsing ∨
      (clientRequest st true (.response 401 hdrs) body).result
        = .error .ChunkingResponse) ∧
    (∀ (st2 : ClientState) (t2 : Bool) (n2 : NetOutcome) (b2 : BodyRead),
      st2.token_invalid = true →
      (clientRequest st2 t2 n2 b2).state.token_invalid = true) := by
  refine ⟨?_, ?_, ?_⟩
  · cases body with
    | chunkFail => simp [clientRequest, hti, hr]
    | bytes ok => cases ok <;> simp [clientRequest, hti, hr]
  · cases body with
    | chunkFail => simp [clientRequest, hti, hr]
    | bytes ok => cases ok <;> simp [clientRequest, hti, hr]
  · intro st2 t2 n2 b2 h2
    simp [clientRequest, h2]

/-- C1 witness: the amended theorem evaluated on a fresh client and a 401
with a well-formed error body. -/
theorem c1_witness :
    (clientRequest ⟨false, true⟩ true
        (.response 401 none) (.bytes true)).state.token_invalid = true :=
  (c1_unauthorized_latch_amended ⟨false, true⟩ none (.bytes true) rfl rfl).1

/-- C2: once `token_invalid` is set, every call to `Client::request`
returns the `Unauthorized` error immediately, leaves the state unchanged,
produces no outbound HTTP request and touches no ticket, whatever the
would-be network outcome. -/
theorem c2_latched_requests_fail_fast (st : ClientState) (ticketOk : Bool)
    (net : NetOutcome) (body : BodyRead) (h : st.token_invalid = true) :
    clientRequest st ticketOk net body =
      { state := st, result := .error .Unauthorized,
        sentNetwork := false, ticketReply := none } := by
  simp [clientRequest, h]

/-- C2 witness: a latched client fails fast on a concrete request. -/
theorem c2_witness :
    clientRequest ⟨true, true⟩ true (.response 200 none) (.bytes true) =
      { state := ⟨true, true⟩, result := .error .Unauthorized,
        sentNetwork := false, ticketReply := none } :=
  c2_latched_requests_fail_fast ⟨true, true⟩ true (.response 200 none)
    (.bytes true) rfl

/-- C3 (counterexample): `Bucket::update` stores the header tuple's
`remaining` verbatim, so a single update with the arbitrary tuple
`(limit 5, remaining 10, reset_after 1000)` on a fresh bucket leaves
`remaining = 10 > 5 = limit`, violating the claimed invariant. -/
theorem c3_counterexample :
    ¬ ((Bucket.new.update 0 (some (5, 10, 1000))).remaining ≤
        (Bucket.new.update 0 (some (5, 10, 1000))).limit) := by
  decide

/-- C3 (amended): the invariant `0 ≤ remaining ≤ limit` (the lower bound
being inherent to `u64`) holds at every observation point of every
operation sequence — creation, updates, resets — provided each header
tuple reports the route's limit `L` with `remaining ≤ L`, and the
headerless pessimistic decrement (which wraps at zero) only fires while
`remaining > 0`. -/
theorem c3_bucket_invariant_amended (L : Nat) (hL : L ≤ U64MAX)
    (ops : List BOp) (hw : wfOps L Bucket.new ops = true) (n : Nat) :
    (applyOps Bucket.new (ops.take n)).remaining ≤
      (applyOps Bucket.new (ops.take n)).limit :=
  (bucketInv_applyOps hL (bucketInv_new L) hw n).1

/-- C3 witness: the amended invariant evaluated on a concrete well-formed
operation sequence (headers, a pessimistic decrement, a reset). -/
theorem c3_witness :
    (applyOps Bucket.new
        (([BOp.upd 0 (some (5, 3, 1000)), BOp.upd 10 none,
            BOp.reset 2000]).take 3)).remaining ≤
      (applyOps Bucket.new
        (([BOp.upd 0 (some (5, 3, 1000)), BOp.upd 10 none,
            BOp.reset 2000]).take 3)).limit :=
  c3_bucket_invariant_amended 5 (by decide) _ (by decide) 3

/-- C4 (counterexample): a ticket reporting `Headers::None` (and likewise
a dropped ticket) leaves the bucket's `remaining` counter untouched at 3
instead of decrementing it to 2 as the claim requires. -/
theorem c4_counterexample :
    (bucketAfterTicket ⟨5, 3, 1000, some 0⟩
        (.reported 7 (.got .None))).remaining = 3 ∧
    (bucketAfterTicket ⟨5, 3, 1000, some 0⟩ (.reported 7 .lost)).remaining
        = 3 ∧
    ¬ ((bucketAfterTicket ⟨5, 3, 1000, some 0⟩
        (.reported 7 (.got .None))).remaining = 2) := by
  decide

/-- C4 (amended): the `Headers::None` report, the dropped/cancelled ticket
and the never-admitted ticket all leave the bucket completely unchanged;
the `update(None)` path that performs the wrapping decrement of
`remaining` by 1 is taken only when the ticket reports `GlobalLimited`. -/
theorem c4_none_path_amended (b : Bucket) (now ra : Nat) :
    bucketAfterTicket b (.reported now (.got .None)) = b ∧
    bucketAfterTicket b (.reported now .lost) = b ∧
    bucketAfterTicket b .skipped = b ∧
    (bucketAfterTicket b
        (.reported now (.got (.GlobalLimited ra)))).remaining
      = (b.remaining + U64MAX) % U64SIZE := by
  refine ⟨rfl, rfl, rfl, ?_⟩
  simp [bucketAfterTicket, handleHeaders, update_none_eq]

/-- C10: with rate limiting disabled (no `Ratelimiter` configured) and the
latch unset, `Client::request` wraps any arrived response — whatever its
status code — as a success, performs no status interpretation, leaves
`token_invalid` unset, and never talks to a ticket. -/
theorem c10_no_ratelimiter_raw_success (st : ClientState) (ticketOk : Bool)
    (status : Nat) (hdrs : Option Headers) (body : BodyRead)
    (hnr : st.hasRatelimiter = false) (hti : st.token_invalid = false) :
    clientRequest st ticketOk (.response status hdrs) body =
      { state := st, result := .ok status,
        sentNetwork := true, ticketReply := none } := by
  simp [clientRequest, hnr, hti]

/-- C10 witness: a ratelimiter-less client returns a 401 response as a
plain success and stays unlatched. -/
theorem c10_witness :
    clientRequest ⟨false, false⟩ true (.response 401 none) (.bytes true) =
      { state := ⟨false, false⟩, result := .ok 401,
        sentNetwork := true, ticketReply := none } :=
  c10_no_ratelimiter_raw_success ⟨false, false⟩ true 401 none (.bytes true)
    rfl rfl

/-- C5: for a worker about to admit a ticket from a bucket with
`remaining = 0`: if the window started at `s` and positive time remains,
`wait_if_needed` sleeps exactly `reset_after - (now - s)` and, the sleep
returning strictly after the window's end, resets the bucket
(`remaining := limit`, `started_at := none`) before admitting; if the
window never started, it admits immediately without sleeping or changing
the bucket; if the window has already elapsed, it resets and admits
without sleeping. -/
theorem c5_wait_if_needed (b : Bucket) (s now resume : Nat)
    (hrem : b.remaining = 0) :
    (b.started_at = some s → s ≤ now → now - s < b.reset_after →
      s + b.reset_after < resume →
      waitIfNeeded b now resume =
        (some (b.reset_after - (now - s)),
          { b with remaining := b.limit, started_at := none })) ∧
    (b.started_at = none → waitIfNeeded b now resume = (none, b)) ∧
    (b.started_at = some s → b.reset_after < now - s →
      waitIfNeeded b now resume =
        (none, { b with remaining := b.limit, started_at := none })) := by
  refine ⟨?_, ?_, ?_⟩
  · intro hs hle hpos hres
    have h1 : ¬ (now - s > b.reset_after) := by omega
    have h2 : resume - s > b.reset_after := by omega
    simp [waitIfNeeded, Bucket.timeRemaining, Bucket.tryReset, hrem, hs,
      h1, h2]
  · intro hs
    simp [waitIfNeeded, Bucket.timeRemaining, hrem, hs]
  · intro hs hfin
    have h1 : now - s > b.reset_after := by omega
    simp [waitIfNeeded, Bucket.timeRemaining, Bucket.tryReset, hrem, hs, h1]

/-- C5 witness: a started window with 500 ms remaining sleeps 500 ms and
resets; evaluated at concrete instants. -/
theorem c5_witness :
    waitIfNeeded ⟨5, 0, 1000, some 100⟩ 600 1101 =
      (some 500, ⟨5, 5, 1000, none⟩) := by
  have h := (c5_wait_if_needed ⟨5, 0, 1000, some 100⟩ 100 600 1101 rfl).1
    rfl (by decide) (by decide) (by decide)
  simpa using h

lemma soloTrace_eq (t1 d1 : Nat) :
    soloTrace t1 d1 = [(t1, true), (t1 + d1, false)] := by
  simp [soloTrace, lockGlobalEvents]

lemma reentrantTrace_eq (t1 d1 t n : Nat) (h1 : t1 ≤ t)
    (h2 : t < t1 + d1) :
    reentrantTrace t1 d1 t n =
      [(t1, true), (t, true), (t1 + d1, false), (t1 + d1 + n, false)] := by
  have hmax : max t (t1 + d1) = t1 + d1 := Nat.max_eq_right (le_of_lt h2)
  have h3 : ¬ (t1 + d1 ≤ t) := by omega
  have h4 : t1 + d1 ≤ t1 + d1 + n := Nat.le_add_right _ _
  simp [reentrantTrace, lockGlobalEvents, hmax, mergeTraces, h1, h3, h4]

/-- C6: a `GlobalLimited { reset_after }` report asks `lock_global` for
exactly `reset_after`; a solo `lock_global(d1)` entered at `t1` holds the
global flag exactly on `[t1, t1 + d1)` and then clears it; and re-entering
`lock_global(n)` at `t` while the first tripper still holds `r` ms does
not shorten the flagged window (it stays up for the full `r`) and extends
it to at most `max r n` beyond the re-entry point. -/
theorem c6_global_lock_window (t1 d1 t n : Nat) (h1 : t1 ≤ t)
    (h2 : t < t1 + d1) :
    (∀ ra, globalLockRequest (Headers.GlobalLimited ra) = some ra) ∧
    (∀ time, flagAt (soloTrace t1 d1) time = true ↔
      t1 ≤ time ∧ time < t1 + d1) ∧
    (∀ time, t ≤ time → time < t + (t1 + d1 - t) →
      flagAt (reentrantTrace t1 d1 t n) time = true) ∧
    (∀ time, t + max (t1 + d1 - t) n ≤ time →
      flagAt (reentrantTrace t1 d1 t n) time = false) := by
  refine ⟨fun _ => rfl, ?_, ?_, ?_⟩
  · intro time
    rw [soloTrace_eq]
    simp only [flagAt, List.foldl]
    split_ifs <;> simp <;> omega
  · intro time ha hb
    rw [reentrantTrace_eq t1 d1 t n h1 h2]
    simp only [flagAt, List.foldl]
    split_ifs <;> first | rfl | (exfalso; omega)
  · intro time hge
    rw [reentrantTrace_eq t1 d1 t n h1 h2]
    simp only [flagAt, List.foldl]
    have hmx : t1 + d1 ≤ time := by
      have := le_max_left (t1 + d1 - t) n
      omega
    split_ifs <;> rfl

/-- C6 witness: first tripper at 0 for 10 ms, re-entry at 4 for 3 ms
(`r = 6`): the flag is still up at instant 9 and down at instant 10. -/
theorem c6_witness :
    flagAt (reentrantTrace 0 10 4 3) 9 = true ∧
    flagAt (reentrantTrace 0 10 4 3) 10 = false ∧
    flagAt (soloTrace 0 10) 5 = true := by
  have h := c6_global_lock_window 0 10 4 3 (by decide) (by decide)
  exact ⟨h.2.2.1 9 (by decide) (by decide), h.2.2.2 10 (by decide),
    (h.2.1 5).mpr (by decide)⟩

lemma lookupBucket_removeBucket_self (l : List (String × Bucket))
    (path : String) : lookupBucket (removeBucket l path) path = none := by
  induction l with
  | nil => rfl
  | cons p rest ih =>
    by_cases h : p.1 = path
    · simpa [removeBucket, h] using ih
    · simpa [removeBucket, lookupBucket, h] using ih

lemma lookupBucket_removeBucket_other (l : List (String × Bucket))
    (path p : String) (hne : p ≠ path) :
    lookupBucket (removeBucket l path) p = lookupBucket l p := by
  have hne' : ¬ (path = p) := fun hq => hne hq.symm
  induction l with
  | nil => rfl
  | cons q rest ih =>
    by_cases h : q.1 = path
    · simp [removeBucket, lookupBucket, h, hne, hne', ih]
    · by_cases h2 : q.1 = p <;>
        simp [removeBucket, lookupBucket, h, h2, hne, hne', ih]

lemma lookupBucket_updateOwn_other (l : List (String × Bucket))
    (path p : String) (t : TicketStep) (hne : p ≠ path) :
    lookupBucket (updateOwnBucket l path t) p = lookupBucket l p := by
  have hne' : ¬ (path = p) := fun hq => hne hq.symm
  induction l with
  | nil => rfl
  | cons q rest ih =>
    simp only [updateOwnBucket, List.map_cons] at ih ⊢
    by_cases h : q.1 = path
    · simp [lookupBucket, h, hne, hne', ih]
    · by_cases h2 : q.1 = p <;> simp [lookupBucket, h, h2, hne, hne', ih]

/-- C7: whenever the worker's pop sequence hits an idle timeout, the
`while let` loop exits and the worker removes exactly its own path from
the shared bucket registry: its own binding is gone and every other
path's binding is untouched. -/
theorem c7_idle_timeout_removes_own_bucket (regs : List (String × Bucket))
    (own : String) (steps : List PopStep)
    (hmem : PopStep.timedOut ∈ steps) :
    lookupBucket (runTask regs own steps) own = none ∧
    ∀ p, p ≠ own → lookupBucket (runTask regs own steps) p
      = lookupBucket regs p := by
  induction steps generalizing regs with
  | nil => cases hmem
  | cons s rest ih =>
    cases s with
    | timedOut =>
      refine ⟨lookupBucket_removeBucket_self regs own, fun p hp => ?_⟩
      exact lookupBucket_removeBucket_other regs own p hp
    | popped t =>
      have hmem' : PopStep.timedOut ∈ rest := by
        rcases List.mem_cons.mp hmem with h | h
        · exact absurd h (by simp)
        · exact h
      obtain ⟨ha, hb⟩ := ih (updateOwnBucket regs own t) hmem'
      refine ⟨ha, fun p hp => ?_⟩
      rw [runTask, hb p hp, lookupBucket_updateOwn_other regs own p t hp]

/-- C7 witness: a two-bucket registry whose `"a"` worker pops one dropped
ticket and then times out: `"a"` is removed, `"b"` is untouched. -/
theorem c7_witness :
    lookupBucket (runTask [("a", Bucket.new), ("b", Bucket.new)] "a"
      [.popped .skipped, .timedOut]) "a" = none ∧
    lookupBucket (runTask [("a", Bucket.new), ("b", Bucket.new)] "a"
      [.popped .skipped, .timedOut]) "b"
      = lookupBucket [("a", Bucket.new), ("b", Bucket.new)] "b" := by
  have h := c7_idle_timeout_removes_own_bucket
    [("a", Bucket.new), ("b", Bucket.new)] "a"
    [.popped .skipped, .timedOut] (by decide)
  exact ⟨h.1, h.2 "b" (by decide)⟩

lemma botTag_isPrefixOf_append (t : List Char) :
    botTag.isPrefixOf (botTag ++ t) = true := by
  simp [botTag, List.isPrefixOf]

/-- C8 (counterexample): giving the shard builder the token
`"Bearer abc"` — which carries the recognized `"Bearer "` prefix —
nevertheless prepends `"Bot "`, refuting the claimed
"prefixed iff the input lacked any recognized prefix". -/
theorem c8_counterexample :
    ¬ ((normalizeShardToken ("Bearer abc".toList)
          = botTag ++ "Bearer abc".toList) ↔
        ¬ (botTag.isPrefixOf "Bearer abc".toList = true ∨
            bearerTag.isPrefixOf "Bearer abc".toList = true)) := by
  decide

/-- C8 (amended): the shard builder prepends `"Bot "` iff the input lacks
the `"Bot "` prefix specifically (`"Bearer "` is not recognized by
`ShardBuilder::_new`); normalizing is the identity exactly on tokens that
already begin with `"Bot "`, and a prepended token always begins with
`"Bot "`. -/
theorem c8_token_normalization_amended (t : List Char) :
    (normalizeShardToken t = t ↔ botTag.isPrefixOf t = true) ∧
    (botTag.isPrefixOf t = false →
      normalizeShardToken t = botTag ++ t ∧
      botTag.isPrefixOf (normalizeShardToken t) = true) := by
  constructor
  · constructor
    · intro h
      by_cases hp : botTag.isPrefixOf t = true
      · exact hp
      · rw [normalizeShardToken, if_neg hp] at h
        have hlen := congrArg List.length h
        simp [botTag] at hlen
        omega
    · intro h
      rw [normalizeShardToken, if_pos h]
  · intro h
    have hcond : ¬ (botTag.isPrefixOf t = true) := by simp [h]
    refine ⟨by rw [normalizeShardToken, if_neg hcond], ?_⟩
    rw [normalizeShardToken, if_neg hcond]
    exact botTag_isPrefixOf_append t

/-- C8 witness: the amended rule evaluated on a prefix-less token and on
one already carrying `"Bot "`. -/
theorem c8_witness :
    normalizeShardToken "abc".toList = botTag ++ "abc".toList ∧
    normalizeShardToken "Bot abc".toList = "Bot abc".toList :=
  ⟨((c8_token_normalization_amended "abc".toList).2 (by decide)).1,
    (c8_token_normalization_amended "Bot abc".toList).1.mpr (by decide)⟩

/-- C9: `Cluster::send` and `Cluster::command` return
`ShardNonexistent { id }` exactly when the shard map has no entry for
`id`, and return `Sending` exactly when the shard exists but the
underlying shard send (resp. command) fails. -/
theorem c9_cluster_send_errors (shards : List (Nat × ShardHandle))
    (id : Nat) :
    (clusterSend shards id = .error (.ShardNonexistent id) ↔
      lookupShard shards id = none) ∧
    (clusterSend shards id = .error .Sending ↔
      ∃ sh, lookupShard shards id = some sh ∧ sh.sendOk = false) ∧
    (clusterCommand shards id = .error (.ShardNonexistent id) ↔
      lookupShard shards id = none) ∧
    (clusterCommand shards id = .error .Sending ↔
      ∃ sh, lookupShard shards id = some sh ∧ sh.commandOk = false) := by
  rcases h : lookupShard shards id with _ | sh
  · simp [clusterSend, clusterCommand, h]
  · by_cases hs : sh.sendOk <;> by_cases hc : sh.commandOk <;>
      simp [clusterSend, clusterCommand, h, hs, hc]

end Twilight
